import Mathlib

/-!
Verification of the Koi water-wave engine (`Waves`) and the `Card` GUI class.

The propagation fragment shader (`SHADER_PROPAGATE_FRAGMENT`) is embedded as a
pure function over exact rationals; the distortion/shading fragment shader
(`SHADER_DISTORT_FRAGMENT`) over the reals (it divides by square roots); the
`propagate`/`render` drivers as state transformers over an explicit GL state;
`Card.initialize` as a state transformer emitting a list of observable effects.
-/

/-- A texel of the height-field state texture: channels r, g, b, a in [0,1]
storage range, modelled as exact rationals. -/
structure PixelQ where
  r : ℚ
  g : ℚ
  b : ℚ
  a : ℚ
  deriving DecidableEq

/-- Source `Waves.prototype.DAMPING = .995`. -/
def DAMPING : ℚ := 0.995

/-- One cell update of `SHADER_PROPAGATE_FRAGMENT`: the texture is the cell
function `src`, one texel step in uv space is one cell step.  Mirrors the
shader body: `state = src[p].rgb`, the four axis neighbour reds,
`momentum = (state.g + state.b) * 2 - 1`,
`newHeight = (hLeft + hUp + hRight + hDown) - 2.0`, and the written fragment
`vec4(((newHeight - momentum) * damping) * 0.5 + 0.5, state.r, 0, 0)`. -/
def propagateFragment (damping : ℚ) (src : ℤ × ℤ → PixelQ) (p : ℤ × ℤ) : PixelQ :=
  let state := src p
  let hLeft := (src (p.1 - 1, p.2)).r
  let hRight := (src (p.1 + 1, p.2)).r
  let hUp := (src (p.1, p.2 - 1)).r
  let hDown := (src (p.1, p.2 + 1)).r
  let momentum := (state.g + state.b) * 2 - 1
  let newHeight := (hLeft + hUp + hRight + hDown) - 2
  ⟨((newHeight - momentum) * damping) * 0.5 + 0.5, state.r, 0, 0⟩

/-- The new cell state exactly as the claim words it: momentum reconstructed
from the stored channels as `(m1 + m2) * 2 - 1`, newHeight the sum of the four
axis-neighbour heights minus 2.0, previousHeight the stored red channel,
damping 0.995. -/
def claimedPropagateState (src : ℤ × ℤ → PixelQ) (p : ℤ × ℤ) : PixelQ :=
  let m1 := (src p).g
  let m2 := (src p).b
  let momentum := (m1 + m2) * 2 - 1
  let newHeight :=
    ((src (p.1 - 1, p.2)).r + (src (p.1, p.2 - 1)).r
      + (src (p.1 + 1, p.2)).r + (src (p.1, p.2 + 1)).r) - 2
  let previousHeight := (src p).r
  ⟨((newHeight - momentum) * 0.995) * 0.5 + 0.5, previousHeight, 0, 0⟩

/-- The damped signal the propagation shader stores: `(newHeight - momentum) * damping`. -/
def propagateSignal (damping : ℚ) (src : ℤ × ℤ → PixelQ) (p : ℤ × ℤ) : ℚ :=
  let state := src p
  let momentum := (state.g + state.b) * 2 - 1
  let newHeight :=
    ((src (p.1 - 1, p.2)).r + (src (p.1, p.2 - 1)).r
      + (src (p.1 + 1, p.2)).r + (src (p.1, p.2 + 1)).r) - 2
  (newHeight - momentum) * damping

/-- The spec's encode map `encode(h) = h/6 + 0.5` (it appears nowhere in the
shader source; the spec presents it as the storage encoding of heights). -/
def specEncode (h : ℚ) : ℚ := h / 6 + 0.5

/-- The shading-stage read mapping of a stored red channel, from
`SHADER_DISTORT_FRAGMENT`'s `get`: `value * 6.0 - 3.0`. -/
def shadingDecode (v : ℚ) : ℚ := v * 6 - 3

/-- The affine transform the propagation shader applies to its damped signal
before storing it in the red channel: `value * 0.5 + 0.5` (from the
`gl_FragColor` expression of `SHADER_PROPAGATE_FRAGMENT`). -/
def propagationWriteEncode (x : ℚ) : ℚ := x * 0.5 + 0.5

/-- Clamp an index into the 7-cell range `[0, 6]`. -/
def clamp7 (i : ℤ) : ℤ := max 0 (min 6 i)

/-- A 7×7 height field stored row-major (row index = y, column index = x). -/
def GridQ : Type := List (List PixelQ)

/-- Modelled from the spec: the texture wrap mode at the field boundary is set
outside the excerpted source (the spec calls the edge policy
implementation-defined and recommends clamp-to-edge); clamp-to-edge sampling
of the 7×7 grid. -/
def sampleGrid (g : GridQ) (p : ℤ × ℤ) : PixelQ :=
  (g.getD (clamp7 p.2).toNat []).getD (clamp7 p.1).toNat ⟨0, 0, 0, 0⟩

/-- One whole-field propagation pass on the 7×7 field: every cell is updated
by `propagateFragment` with the source damping, reading the previous grid. -/
def waveStep (g : GridQ) : GridQ :=
  (List.range 7).map (fun j =>
    (List.range 7).map (fun i =>
      propagateFragment DAMPING (sampleGrid g) ((i : ℤ), (j : ℤ))))

/-- A single encoded impulse at the centre cell (3,3) with zero momentum
everywhere: momentum `(g + b) * 2 - 1` is zero since `g = 1/2`, `b = 0`;
all other cells hold the encoded-neutral height `1/2`. -/
def impulseGrid : GridQ :=
  (List.range 7).map (fun j =>
    (List.range 7).map (fun i =>
      if i = 3 ∧ j = 3 then ⟨1, 1/2, 0, 0⟩ else ⟨1/2, 1/2, 0, 0⟩))

/-- Total field energy: the sum over all cells of the squared decoded height,
heights decoded from the stored red channel by the shading read `v * 6 - 3`. -/
def gridEnergy (g : GridQ) : ℚ :=
  (g.map (fun row =>
    (row.map (fun c =>
      let d := shadingDecode c.r
      d * d)).sum)).sum

/-- The field after `n` propagation steps from the single impulse. -/
def gridAt : ℕ → GridQ
  | 0 => impulseGrid
  | n + 1 => waveStep (gridAt n)

/-- A cell of the 7×7 field: (column, row) index pair. -/
abbrev Cell : Type := Fin 7 × Fin 7

/-- Clamp an integer coordinate onto the 7-cell index range. -/
def clampIdx (i : ℤ) : Fin 7 :=
  ⟨(clamp7 i).toNat, by unfold clamp7; omega⟩

/-- The left neighbour of a cell under clamp-to-edge sampling. -/
def nbLeft (c : Cell) : Cell := (clampIdx ((c.1 : ℤ) - 1), c.2)

/-- The upper neighbour of a cell under clamp-to-edge sampling. -/
def nbUp (c : Cell) : Cell := (c.1, clampIdx ((c.2 : ℤ) - 1))

/-- The right neighbour of a cell under clamp-to-edge sampling. -/
def nbRight (c : Cell) : Cell := (clampIdx ((c.1 : ℤ) + 1), c.2)

/-- The lower neighbour of a cell under clamp-to-edge sampling. -/
def nbDown (c : Cell) : Cell := (c.1, clampIdx ((c.2 : ℤ) + 1))

/-- How many of the four clamped neighbour samples of `c` land on `c'`: twice
the entry of the stencil matrix of one propagation pass. -/
def cnt (c c' : Cell) : ℕ :=
  (if nbLeft c = c' then 1 else 0) + (if nbUp c = c' then 1 else 0)
    + (if nbRight c = c' then 1 else 0) + (if nbDown c = c' then 1 else 0)

/-- Clamp-to-edge sampling of a field in function form (the same boundary
policy as `sampleGrid`). -/
def sampleFun (v : Cell → PixelQ) (p : ℤ × ℤ) : PixelQ :=
  v (clampIdx p.1, clampIdx p.2)

/-- One whole-field propagation pass in function form with damping `d`:
every cell is updated by `propagateFragment` reading the previous field. -/
def stepFun (d : ℚ) (v : Cell → PixelQ) : Cell → PixelQ :=
  fun c => propagateFragment d (sampleFun v) ((c.1 : ℤ), (c.2 : ℤ))

/-- The single-impulse, zero-momentum initial field in function form; it
agrees with `impulseGrid` cell by cell (`toFun_impulseGrid`). -/
def impulseFun : Cell → PixelQ :=
  fun c => if (c.1 : ℕ) = 3 ∧ (c.2 : ℕ) = 3 then ⟨1, 1/2, 0, 0⟩ else ⟨1/2, 1/2, 0, 0⟩

/-- The field after `n` propagation steps with damping `d`, in function form. -/
def funAt (d : ℚ) : ℕ → (Cell → PixelQ)
  | 0 => impulseFun
  | n + 1 => stepFun d (funAt d n)

/-- The signed value of each cell, undoing the propagation shader's own
`* 0.5 + 0.5` storage encoding: `x = 2 r - 1`. -/
def xOf (v : Cell → PixelQ) : Cell → ℚ := fun c => 2 * (v c).r - 1

/-- The momentum of each cell as the propagation shader reconstructs it:
`(g + b) * 2 - 1`. -/
def mOf (v : Cell → PixelQ) : Cell → ℚ := fun c => ((v c).g + (v c).b) * 2 - 1

/-- The inner product of two scalar fields over all 49 cells. -/
def innerQ (u v : Cell → ℚ) : ℚ := ∑ c : Cell, u c * v c

/-- The squared Euclidean norm of a scalar field. -/
def normSq (u : Cell → ℚ) : ℚ := innerQ u u

/-- The stencil operator of one propagation pass on signed values: half the
sum of the four clamped neighbour values; `propagateFragment` computes
exactly `x' = d * (SOp x - m)` (`xOf_stepFun`). -/
def SOp (u : Cell → ℚ) : Cell → ℚ :=
  fun c => (u (nbLeft c) + u (nbUp c) + u (nbRight c) + u (nbDown c)) / 2

/-- A discrete energy for the damped leapfrog `x' = d * (SOp x - m), m' = x`:
it contracts by exactly `d` at every step (`lyap_step`) and dominates
`(1 - d) * normSq x` (`lyap_lower`), which bounds the height energy. -/
def lyap (d : ℚ) (x m : Cell → ℚ) : ℚ :=
  normSq x + d * normSq m - d * innerQ x (SOp m)

/-- Total field energy of a field in function form: the sum of squared
decoded heights, as in `gridEnergy`. -/
def fieldEnergyFun (v : Cell → PixelQ) : ℚ :=
  ∑ c : Cell, shadingDecode (v c).r * shadingDecode (v c).r

/-- Total energy after `n` propagation steps with damping `d`. -/
def funEnergy (d : ℚ) (n : ℕ) : ℚ := fieldEnergyFun (funAt d n)

/-- The field a 7×7 list grid denotes, read through clamp-to-edge sampling. -/
def toFun (g : GridQ) : Cell → PixelQ :=
  fun c => sampleGrid g ((c.1 : ℤ), (c.2 : ℤ))

/-- Modelled from the spec: the WaterPlane class is not part of the excerpted
source (only its `flip`, `getFront`, `getBack` call sites are); per the spec it
owns a pair of buffer slots with width/height metadata and an index selecting
which slot is currently the front. -/
structure WaterPlane where
  bufA : ℕ
  bufB : ℕ
  width : ℚ
  height : ℚ
  frontIsA : Bool
  deriving DecidableEq

/-- Modelled from the spec: the buffer currently designated as front. -/
def WaterPlane.getFront (w : WaterPlane) : ℕ :=
  if w.frontIsA then w.bufA else w.bufB

/-- Modelled from the spec: the buffer currently designated as back. -/
def WaterPlane.getBack (w : WaterPlane) : ℕ :=
  if w.frontIsA then w.bufB else w.bufA

/-- Modelled from the spec: `flip()` swaps which buffer is considered front. -/
def WaterPlane.flip (w : WaterPlane) : WaterPlane :=
  { w with frontIsA := !w.frontIsA }

/-- The observable GPU commands `Waves.prototype.propagate` issues, in order. -/
inductive GLEvent where
  | useProgram
  | flipBuffers
  | bindTarget (buffer : ℕ)
  | clearCall
  | setUniforms
  | bindMesh
  | bindTexture (buffer : ℕ)
  | filterNearest
  | drawCall
  | filterLinear
  | applyInfluences
  deriving DecidableEq, BEq

/-- The command trace of `Waves.prototype.propagate(water, wavePainter, mesh)`
together with the water plane it leaves behind, following the source line by
line: `use()`; `water.flip()`; `water.getFront().target()`; clear; uniforms;
mesh buffers and attributes; `bindTexture(water.getBack().texture)`; nearest
filtering; `drawElements`; linear filtering; `wavePainter.applyInfluences`. -/
def propagateTrace (w : WaterPlane) : List GLEvent × WaterPlane :=
  let w' := w.flip
  ([.useProgram, .flipBuffers, .bindTarget w'.getFront, .clearCall, .setUniforms,
    .bindMesh, .bindTexture w'.getBack, .filterNearest, .drawCall,
    .filterLinear, .applyInfluences], w')

/-- The ordering asserted by the claim: `flip()` is invoked only after the
propagation draw completes, i.e. the draw occurs strictly before the flip. -/
def flipOnlyAfterDraw (t : List GLEvent) : Prop :=
  t.indexOf .drawCall < t.indexOf .flipBuffers

/-- Source `Waves.prototype.DEPTH = 0.1`. -/
def DEPTH : ℚ := 0.1

/-- The uniform slots of the distortion program
(`scale, background, waterBack, waterFront, depth, size, waterSize, time`). -/
structure DistortUniforms where
  uScale : ℚ
  uBackground : ℕ
  uWaterBack : ℕ
  uWaterFront : ℕ
  uDepth : ℚ
  uSize : ℚ × ℚ
  uWaterSize : ℚ × ℚ
  uTime : ℚ
  deriving DecidableEq

/-- The id of the compiled distortion program. -/
def distortProgramId : ℕ := 0

/-- The GL state visible to `Waves.prototype.render`: the program in use, the
bound vertex/index buffers, the three texture units, the currently bound
render framebuffer, a content store indexed by buffer id (the two height-field
buffers live at ids `water.bufA` and `water.bufB`), the water plane, and the
distortion uniforms. -/
structure GLState where
  program : ℕ
  arrayBuffer : ℕ
  elementBuffer : ℕ
  textureUnit0 : ℕ
  textureUnit1 : ℕ
  textureUnit2 : ℕ
  boundFramebuffer : ℕ
  contents : ℕ → List ℚ
  water : WaterPlane
  distortUniforms : DistortUniforms

/-- Source `Waves.prototype.render(background, mesh, water, width, height,
scale, time)`: selects the distortion program, writes its uniforms (`depth` is
`DEPTH * scale`, `waterSize` is the water plane's dimensions), binds the mesh
buffers, binds the background to unit 0, the back buffer texture to unit 1 and
the front buffer texture to unit 2, then draws into the currently bound
framebuffer.  The rasterized fragment output is abstracted as an arbitrary
function `draw` of the state at the moment of the draw call. -/
def renderStep (draw : GLState → List ℚ) (s : GLState)
    (background meshVertices meshIndices : ℕ)
    (width height scale time : ℚ) : GLState :=
  let s1 := { s with
    program := distortProgramId
    distortUniforms :=
      { uScale := scale
        uBackground := 0
        uWaterBack := 1
        uWaterFront := 2
        uDepth := DEPTH * scale
        uSize := (width, height)
        uWaterSize := (s.water.width, s.water.height)
        uTime := time } }
  let s2 := { s1 with
    arrayBuffer := meshVertices
    elementBuffer := meshIndices }
  let s3 := { s2 with
    textureUnit0 := background
    textureUnit1 := s.water.getBack
    textureUnit2 := s.water.getFront }
  { s3 with
    contents := fun id =>
      if id = s3.boundFramebuffer then draw s3 else s3.contents id }

/-- The DOM/GPU state of a `Card` relevant to `initialize`: the `initialized`
flag, whether `body.pattern.region` is set, whether the spine was initialized,
and how many name elements were appended to the name field. -/
structure CardState where
  initialized : Bool
  hasRegion : Bool
  spineReady : Bool
  nameElements : ℕ
  deriving DecidableEq

/-- The externally observable effects of `Card.prototype.initialize`. -/
inductive CardEffect where
  | atlasWrite
  | previewRender
  | atlasReturn
  | nameAppend
  deriving DecidableEq

/-- Source `Card.prototype.initialize(preview, atlas, bodies, palettes,
randomSource)`: returns immediately when already initialized; otherwise sets the flag, and when
the pattern has no region initializes the spine and writes the pattern to the
atlas, renders the preview, returns the freshly created region, and appends the
name element.  The arguments never influence the early-return guard; their use
is abstracted into the effect list. -/
def initializeCard (s : CardState) : CardState × List CardEffect :=
  if s.initialized then (s, [])
  else
    let s1 : CardState := { s with initialized := true }
    let createdTexture := !s.hasRegion
    let (s2, atlasEffects) :=
      if s.hasRegion then (s1, ([] : List CardEffect))
      else ({ s1 with spineReady := true, hasRegion := true },
        ([.atlasWrite] : List CardEffect))
    let (s3, returnEffects) :=
      if createdTexture then ({ s2 with hasRegion := false },
        ([.atlasReturn] : List CardEffect))
      else (s2, ([] : List CardEffect))
    let s4 : CardState := { s3 with nameElements := s3.nameElements + 1 }
    (s4, atlasEffects ++ [.previewRender] ++ returnEffects ++ [.nameAppend])

/-- A 2-component GLSL vector over the reals. -/
structure Vec2 where
  x : ℝ
  y : ℝ

/-- A 3-component GLSL vector over the reals. -/
structure Vec3 where
  x : ℝ
  y : ℝ
  z : ℝ

/-- A 4-component GLSL vector over the reals. -/
structure Vec4 where
  x : ℝ
  y : ℝ
  z : ℝ
  w : ℝ

/-- GLSL `dot` on 3-vectors. -/
def dot3 (a b : Vec3) : ℝ := a.x * b.x + a.y * b.y + a.z * b.z

/-- GLSL `length` on 3-vectors. -/
noncomputable def length3 (v : Vec3) : ℝ := Real.sqrt (dot3 v v)

/-- GLSL `normalize` on 3-vectors. -/
noncomputable def normalize3 (v : Vec3) : Vec3 :=
  ⟨v.x / length3 v, v.y / length3 v, v.z / length3 v⟩

/-- GLSL `cross`. -/
def cross3 (a b : Vec3) : Vec3 :=
  ⟨a.y * b.z - a.z * b.y, a.z * b.x - a.x * b.z, a.x * b.y - a.y * b.x⟩

/-- GLSL `mix` on scalars: `mix(a, b, t) = a + (b - a) * t`. -/
def mixR (a b t : ℝ) : ℝ := a + (b - a) * t

/-- GLSL `mix` on 4-vectors, componentwise. -/
def mix4 (a b : Vec4) (t : ℝ) : Vec4 :=
  ⟨mixR a.x b.x t, mixR a.y b.y t, mixR a.z b.z t, mixR a.w b.w t⟩

/-- Componentwise product of two 4-vectors. -/
def v4mul (a b : Vec4) : Vec4 :=
  ⟨a.x * b.x, a.y * b.y, a.z * b.z, a.w * b.w⟩

/-- The samplers and uniforms of `SHADER_DISTORT_FRAGMENT`: the background,
back and front height-field textures (sampling abstracted as functions of uv),
and the `depth`, `size`, `waterSize` and `time` uniforms. -/
structure DistortEnv where
  background : Vec2 → Vec4
  waterBack : Vec2 → Vec4
  waterFront : Vec2 → Vec4
  depth : ℝ
  size : Vec2
  waterSize : Vec2
  time : ℝ

/-- The shader's `get(delta)`: sample both height buffers at
`gl_FragCoord.xy / size + delta / waterSize`, blend the red channels by
`time`, and decode via `* 6.0 - 3.0`. -/
noncomputable def getHeight (e : DistortEnv) (frag delta : Vec2) : ℝ :=
  let uv : Vec2 := ⟨frag.x / e.size.x + delta.x / e.waterSize.x,
                    frag.y / e.size.y + delta.y / e.waterSize.y⟩
  mixR (e.waterBack uv).x (e.waterFront uv).x e.time * 6 - 3

/-- The shader's `dyx = get(vec2(1,0)) - get(vec2(-1,0))`. -/
noncomputable def dyx (e : DistortEnv) (frag : Vec2) : ℝ :=
  getHeight e frag ⟨1, 0⟩ - getHeight e frag ⟨-1, 0⟩

/-- The shader's `dyz = get(vec2(0,1)) - get(vec2(0,-1))`. -/
noncomputable def dyz (e : DistortEnv) (frag : Vec2) : ℝ :=
  getHeight e frag ⟨0, 1⟩ - getHeight e frag ⟨0, -1⟩

/-- The shader's surface normal:
`cross(normalize(vec3(2, dyx, 0)), normalize(vec3(0, dyz, 2)))`. -/
noncomputable def surfaceNormal (e : DistortEnv) (frag : Vec2) : Vec3 :=
  cross3 (normalize3 ⟨2, dyx e frag, 0⟩) (normalize3 ⟨0, dyz e frag, 2⟩)

/-- The shader's displacement: `depth * normal.xz / size`. -/
noncomputable def displacement (e : DistortEnv) (frag : Vec2) : Vec2 :=
  ⟨e.depth * (surfaceNormal e frag).x / e.size.x,
   e.depth * (surfaceNormal e frag).z / e.size.y⟩

/-- The shader's `shiny = dot(normalize(vec3(1, 0, 1)), normal)`. -/
noncomputable def shiny (e : DistortEnv) (frag : Vec2) : ℝ :=
  dot3 (normalize3 ⟨1, 0, 1⟩) (surfaceNormal e frag)

/-- The shader's conditional adjustment of `shiny`:
`if (shiny < 0.0) shiny *= 0.5; else { if (shiny > 0.5) shiny *= 1.5; }`. -/
noncomputable def shinyAdjusted (e : DistortEnv) (frag : Vec2) : ℝ :=
  if shiny e frag < 0 then shiny e frag * 0.5
  else if shiny e frag > 0.5 then shiny e frag * 1.5
  else shiny e frag

/-- The two cascaded dulling filter colors:
`vec4(0.93, 0.98, 1.0, 1.0) * vec4(0.92, 0.97, 1.0, 1.0)`. -/
def filterColor : Vec4 := v4mul ⟨0.93, 0.98, 1, 1⟩ ⟨0.92, 0.97, 1, 1⟩

/-- The fixed sky color `vec4(0.88, 0.96, 1.0, 1.0)`. -/
def skyColor : Vec4 := ⟨0.88, 0.96, 1, 1⟩

/-- The shader's background sample:
`texture2D(background, gl_FragCoord.xy / size - displacement)`. -/
noncomputable def sampledPixel (e : DistortEnv) (frag : Vec2) : Vec4 :=
  e.background ⟨frag.x / e.size.x - (displacement e frag).x,
                frag.y / e.size.y - (displacement e frag).y⟩

/-- The pixel used in the blend: `if (pixel.a == 0.0) pixel = vec4(1.0);`. -/
noncomputable def blendedPixel (e : DistortEnv) (frag : Vec2) : Vec4 :=
  if (sampledPixel e frag).w = 0 then ⟨1, 1, 1, 1⟩ else sampledPixel e frag

/-- The shader's output: `mix(filter * pixel, sky, shiny)`. -/
noncomputable def fragColor (e : DistortEnv) (frag : Vec2) : Vec4 :=
  mix4 (v4mul filterColor (blendedPixel e frag)) skyColor (shinyAdjusted e frag)

/-- The two-piece rule exactly as the claim words it: a negative shading term
is multiplied by 0.5, one exceeding 0.5 is multiplied by 1.5, and it is left
unchanged otherwise. -/
noncomputable def claimAdjust (t : ℝ) : ℝ :=
  if t < 0 then t * 0.5 else if t > 0.5 then t * 1.5 else t

/-- A vector equivalent to (0,1,0) up to orientation: it lies on the vertical
axis (no x or z component) and has unit length. -/
def yAxisAligned (v : Vec3) : Prop :=
  v.x = 0 ∧ v.z = 0 ∧ (v.y = 1 ∨ v.y = -1)

/-- A concrete environment with a perfectly flat water field (both buffers
constant at the encoded-neutral 1/2) over an opaque background. -/
noncomputable def flatWaterEnv : DistortEnv :=
  ⟨fun _ => ⟨1/5, 3/10, 2/5, 1⟩, fun _ => ⟨1/2, 0, 0, 0⟩,
   fun _ => ⟨1/2, 0, 0, 0⟩, 1/10, ⟨1, 1⟩, ⟨4, 4⟩, 0⟩

/-- A concrete environment whose background texture is fully transparent
(alpha 0 everywhere) over a flat water field. -/
noncomputable def alphaZeroEnv : DistortEnv :=
  ⟨fun _ => ⟨3/10, 3/10, 3/10, 0⟩, fun _ => ⟨1/2, 0, 0, 0⟩,
   fun _ => ⟨1/2, 0, 0, 0⟩, 1/10, ⟨1, 1⟩, ⟨4, 4⟩, 0⟩

/-- C1: for every cell of the height field, one propagation step writes the
new encoded state `vec4(((newHeight - momentum) * damping) * 0.5 + 0.5,
previousHeight, 0, 0)`, with momentum reconstructed as `(m1 + m2) * 2 - 1`
from the stored g/b channels, newHeight the sum of the four axis-neighbour
heights minus 2.0 in the encoded domain, previousHeight the stored red
channel, and the damping constant equal to 0.995. -/
theorem c1_propagate_writes_claimed_state :
    (∀ (src : ℤ × ℤ → PixelQ) (p : ℤ × ℤ),
      propagateFragment DAMPING src p = claimedPropagateState src p)
    ∧ DAMPING = 0.995 :=
  ⟨fun _ _ => rfl, rfl⟩

/-- C2: after `propagate()` the buffer that was front is the back and the
buffer that was back is the front, and front and back are never the same
buffer, neither before nor after the flip (modelled WaterPlane, distinct
buffer slots). -/
theorem c2_propagate_swaps_front_and_back (w : WaterPlane)
    (h : w.bufA ≠ w.bufB) :
    (propagateTrace w).2.getFront = w.getBack
    ∧ (propagateTrace w).2.getBack = w.getFront
    ∧ w.getFront ≠ w.getBack
    ∧ (propagateTrace w).2.getFront ≠ (propagateTrace w).2.getBack := by
  rcases w with ⟨a, b, wd, ht, fr⟩
  cases fr <;>
    simp [propagateTrace, WaterPlane.flip, WaterPlane.getFront,
      WaterPlane.getBack] <;>
    first
      | exact ⟨h, fun hba => h hba.symm⟩
      | exact ⟨fun hba => h hba.symm, h⟩

/-- Witness for C2 at a concrete water plane with buffers 0 and 1. -/
theorem c2_witness :
    (propagateTrace ⟨0, 1, 7, 7, true⟩).2.getFront
        = WaterPlane.getBack ⟨0, 1, 7, 7, true⟩
    ∧ (propagateTrace ⟨0, 1, 7, 7, true⟩).2.getBack
        = WaterPlane.getFront ⟨0, 1, 7, 7, true⟩
    ∧ WaterPlane.getFront ⟨0, 1, 7, 7, true⟩
        ≠ WaterPlane.getBack ⟨0, 1, 7, 7, true⟩
    ∧ (propagateTrace ⟨0, 1, 7, 7, true⟩).2.getFront
        ≠ (propagateTrace ⟨0, 1, 7, 7, true⟩).2.getBack :=
  c2_propagate_swaps_front_and_back ⟨0, 1, 7, 7, true⟩ (by decide)

/-- The stencil count matrix is symmetric: with clamp-to-edge sampling, `c`
samples `c'` as often as `c'` samples `c` (checked over all 49×49 pairs). -/
theorem cnt_symm : ∀ c c' : Cell, cnt c c' = cnt c' c := by decide

/-- Clamping an in-range index is the identity. -/
theorem clampIdx_coe (i : Fin 7) : clampIdx (i : ℤ) = i := by
  apply Fin.ext
  simp [clampIdx, clamp7]
  omega

/-- One propagation pass on the signed values is exactly the damped leapfrog
`x' = d * (SOp x - m)`. -/
theorem xOf_stepFun (d : ℚ) (v : Cell → PixelQ) :
    xOf (stepFun d v) = fun c => d * (SOp (xOf v) c - mOf v c) := by
  funext c
  rcases c with ⟨i, j⟩
  simp only [xOf, stepFun, propagateFragment, sampleFun, SOp, mOf,
    nbLeft, nbUp, nbRight, nbDown, clampIdx_coe]
  ring

/-- One propagation pass carries the previous signed value forward as the
next momentum (`state.r` is written to the green channel, blue to 0). -/
theorem mOf_stepFun (d : ℚ) (v : Cell → PixelQ) :
    mOf (stepFun d v) = xOf v := by
  funext c
  rcases c with ⟨i, j⟩
  simp only [mOf, stepFun, propagateFragment, sampleFun, xOf, clampIdx_coe]
  ring

/-- The stencil operator written through its count matrix. -/
theorem SOp_matrix (u : Cell → ℚ) (c : Cell) :
    SOp u c = (∑ c' : Cell, (cnt c c' : ℚ) * u c') / 2 := by
  simp only [SOp, cnt]
  push_cast
  simp only [add_mul, Finset.sum_add_distrib, ite_mul, one_mul, zero_mul,
    Finset.sum_ite_eq, Finset.mem_univ, if_true]

/-- The stencil operator is self-adjoint for the cellwise inner product. -/
theorem innerQ_SOp_self_adjoint (u v : Cell → ℚ) :
    innerQ (SOp u) v = innerQ u (SOp v) := by
  simp only [innerQ]
  have h1 : ∀ c : Cell, SOp u c * v c
      = ∑ c' : Cell, (cnt c c' : ℚ) * u c' * v c / 2 := by
    intro c
    rw [SOp_matrix]
    rw [Finset.sum_div, Finset.sum_mul]
    exact Finset.sum_congr rfl fun c' _ => by ring
  have h2 : ∀ c : Cell, u c * SOp v c
      = ∑ c' : Cell, (cnt c c' : ℚ) * v c' * u c / 2 := by
    intro c
    rw [SOp_matrix]
    rw [Finset.sum_div, Finset.mul_sum]
    exact Finset.sum_congr rfl fun c' _ => by ring
  simp only [h1, h2]
  rw [Finset.sum_comm]
  refine Finset.sum_congr rfl fun c _ => Finset.sum_congr rfl fun c' _ => ?_
  rw [cnt_symm]
  ring

/-- Every cell takes exactly four neighbour samples. -/
theorem cnt_row_sum (c : Cell) : ∑ c' : Cell, (cnt c c' : ℚ) = 4 := by
  simp only [cnt]
  push_cast
  simp only [Finset.sum_add_distrib, Finset.sum_ite_eq, Finset.mem_univ, if_true]
  norm_num

/-- Every cell is sampled exactly four times, counting clamped duplicates. -/
theorem cnt_col_sum (c' : Cell) : ∑ c : Cell, (cnt c c' : ℚ) = 4 := by
  have h : ∀ c : Cell, (cnt c c' : ℚ) = (cnt c' c : ℚ) := fun c => by rw [cnt_symm]
  simp only [h]
  exact cnt_row_sum c'

/-- Schur-type bound for the stencil operator: since all its rows and columns
sum to 4 (and the matrix entries are nonnegative halves of counts), the
bilinear form is dominated by the sum of the two squared norms. -/
theorem innerQ_SOp_le (u v : Cell → ℚ) :
    innerQ u (SOp v) ≤ normSq u + normSq v := by
  have hrw : innerQ u (SOp v)
      = ∑ c : Cell, ∑ c' : Cell, (cnt c c' : ℚ) * v c' * u c / 2 := by
    simp only [innerQ]
    refine Finset.sum_congr rfl fun c _ => ?_
    rw [SOp_matrix, Finset.sum_div, Finset.mul_sum]
    exact Finset.sum_congr rfl fun c' _ => by ring
  rw [hrw]
  have hle : ∑ c : Cell, ∑ c' : Cell, (cnt c c' : ℚ) * v c' * u c / 2
      ≤ ∑ c : Cell, ∑ c' : Cell, (cnt c c' : ℚ) * (u c * u c + v c' * v c') / 4 := by
    refine Finset.sum_le_sum fun c _ => Finset.sum_le_sum fun c' _ => ?_
    have h0 : (0 : ℚ) ≤ (cnt c c' : ℚ) := Nat.cast_nonneg _
    nlinarith [sq_nonneg (u c - v c'), sq_nonneg (u c + v c')]
  refine le_trans hle (le_of_eq ?_)
  have hsplit : ∀ c c' : Cell, (cnt c c' : ℚ) * (u c * u c + v c' * v c') / 4
      = (cnt c c' : ℚ) * (u c * u c) / 4 + (cnt c c' : ℚ) * (v c' * v c') / 4 :=
    fun c c' => by ring
  simp only [hsplit, Finset.sum_add_distrib]
  have hc1 : ∀ c : Cell,
      (∑ c' : Cell, (cnt c c' : ℚ) * (u c * u c) / 4) = u c * u c := by
    intro c
    have hm : ∑ c' : Cell, (cnt c c' : ℚ) * (u c * u c) / 4
        = (∑ c' : Cell, (cnt c c' : ℚ)) * (u c * u c / 4) := by
      rw [Finset.sum_mul]
      exact Finset.sum_congr rfl fun c' _ => by ring
    rw [hm, cnt_row_sum]
    ring
  have hc2 : ∀ c' : Cell,
      (∑ c : Cell, (cnt c c' : ℚ) * (v c' * v c') / 4) = v c' * v c' := by
    intro c'
    have hm : ∑ c : Cell, (cnt c c' : ℚ) * (v c' * v c') / 4
        = (∑ c : Cell, (cnt c c' : ℚ)) * (v c' * v c' / 4) := by
      rw [Finset.sum_mul]
      exact Finset.sum_congr rfl fun c _ => by ring
    rw [hm, cnt_col_sum]
    ring
  rw [Finset.sum_congr rfl fun c _ => hc1 c]
  rw [show (∑ c : Cell, ∑ c' : Cell, (cnt c c' : ℚ) * (v c' * v c') / 4)
      = ∑ c' : Cell, ∑ c : Cell, (cnt c c' : ℚ) * (v c' * v c') / 4 from Finset.sum_comm]
  rw [Finset.sum_congr rfl fun c' _ => hc2 c']
  rfl

/-- The discrete energy contracts by exactly the damping factor at every
propagation pass; self-adjointness of the stencil makes the cross terms
cancel. -/
theorem lyap_step (d : ℚ) (v : Cell → PixelQ) :
    lyap d (xOf (stepFun d v)) (mOf (stepFun d v)) = d * lyap d (xOf v) (mOf v) := by
  rw [xOf_stepFun, mOf_stepFun]
  set x := xOf v
  set m := mOf v
  have hadj : (∑ c : Cell, SOp x c * m c) = ∑ c : Cell, x c * SOp m c :=
    innerQ_SOp_self_adjoint x m
  have hA : ∑ c : Cell, (d * (SOp x c - m c)) * (d * (SOp x c - m c))
      = d ^ 2 * (∑ c : Cell, SOp x c * SOp x c)
        - 2 * d ^ 2 * (∑ c : Cell, SOp x c * m c)
        + d ^ 2 * (∑ c : Cell, m c * m c) := by
    rw [Finset.mul_sum, Finset.mul_sum, Finset.mul_sum,
      ← Finset.sum_sub_distrib, ← Finset.sum_add_distrib]
    exact Finset.sum_congr rfl fun c _ => by ring
  have hC : ∑ c : Cell, (d * (SOp x c - m c)) * SOp x c
      = d * (∑ c : Cell, SOp x c * SOp x c) - d * (∑ c : Cell, SOp x c * m c) := by
    rw [Finset.mul_sum, Finset.mul_sum, ← Finset.sum_sub_distrib]
    exact Finset.sum_congr rfl fun c _ => by ring
  simp only [lyap, normSq, innerQ]
  rw [hA, hC, hadj]
  ring

/-- The impulse field has zero momentum everywhere. -/
theorem mOf_impulse : mOf impulseFun = fun _ => 0 := by
  funext c
  simp only [mOf, impulseFun]
  split <;> norm_num

/-- The impulse field has unit signed norm. -/
theorem normSq_impulse : normSq (xOf impulseFun) = 1 := by decide!

/-- The discrete energy of the initial impulse state is 1 for any damping. -/
theorem lyap_init (d : ℚ) : lyap d (xOf impulseFun) (mOf impulseFun) = 1 := by
  rw [mOf_impulse]
  have hS : SOp (fun _ : Cell => (0 : ℚ)) = fun _ => 0 := by
    funext c
    simp [SOp]
  simp only [lyap, hS]
  have h0 : normSq (fun _ : Cell => (0 : ℚ)) = 0 := by
    simp [normSq, innerQ]
  have h1 : innerQ (xOf impulseFun) (fun _ : Cell => (0 : ℚ)) = 0 := by
    simp [innerQ]
  rw [h0, h1, normSq_impulse]
  ring

/-- After `n` propagation passes the discrete energy is exactly `d ^ n`. -/
theorem lyap_funAt (d : ℚ) (n : ℕ) :
    lyap d (xOf (funAt d n)) (mOf (funAt d n)) = d ^ n := by
  induction n with
  | zero =>
    simp only [funAt, pow_zero]
    exact lyap_init d
  | succ n ih =>
    show lyap d (xOf (stepFun d (funAt d n))) (mOf (stepFun d (funAt d n))) = d ^ (n + 1)
    rw [lyap_step, ih]
    ring

/-- Squared norms are nonnegative. -/
theorem normSq_nonneg (u : Cell → ℚ) : 0 ≤ normSq u :=
  Finset.sum_nonneg fun c _ => mul_self_nonneg (u c)

/-- Coercivity: the discrete energy dominates `(1 - d)` times the squared
norm of the current signed field. -/
theorem lyap_lower (d : ℚ) (hd0 : 0 ≤ d) (x m : Cell → ℚ) :
    normSq x - d * normSq x ≤ lyap d x m := by
  have hb := innerQ_SOp_le x m
  have h2 := mul_le_mul_of_nonneg_left hb hd0
  rw [mul_add] at h2
  simp only [lyap]
  linarith

/-- The field energy is 9 times the squared norm of the signed field
(decoded heights are `6r - 3 = 3 * (2r - 1)`). -/
theorem fieldEnergyFun_eq (v : Cell → PixelQ) :
    fieldEnergyFun v = 9 * normSq (xOf v) := by
  simp only [fieldEnergyFun, normSq, innerQ, xOf, shadingDecode, Finset.mul_sum]
  exact Finset.sum_congr rfl fun c _ => by ring

/-- For every damping in (0,1) the total field energy of the impulse
evolution never exceeds `9 / (1 - d)`, at any step count. -/
theorem funEnergy_bounded (d : ℚ) (hd0 : 0 < d) (hd1 : d < 1) (n : ℕ) :
    funEnergy d n ≤ 9 / (1 - d) := by
  have hV : lyap d (xOf (funAt d n)) (mOf (funAt d n)) = d ^ n := lyap_funAt d n
  have hpow : d ^ n ≤ 1 := pow_le_one₀ (le_of_lt hd0) (le_of_lt hd1)
  have hlow := lyap_lower d (le_of_lt hd0) (xOf (funAt d n)) (mOf (funAt d n))
  have hns := normSq_nonneg (xOf (funAt d n))
  have hE : funEnergy d n = 9 * normSq (xOf (funAt d n)) :=
    fieldEnergyFun_eq (funAt d n)
  rw [hE, le_div_iff₀ (by linarith : (0 : ℚ) < 1 - d)]
  nlinarith

/-- Clamping an in-range coordinate and truncating gives the index back. -/
theorem clamp7_toNat_coe (i : Fin 7) : (clamp7 (i : ℤ)).toNat = (i : ℕ) := by
  have h := i.isLt
  simp only [clamp7]
  omega

/-- The integer value of a clamped index is the clamp of the coordinate. -/
theorem coe_clampIdx (i : ℤ) : ((clampIdx i : Fin 7) : ℤ) = clamp7 i := by
  show (((clamp7 i).toNat : ℕ) : ℤ) = clamp7 i
  simp only [clamp7]
  omega

/-- Clamping is idempotent. -/
theorem clamp7_clamp7 (i : ℤ) : clamp7 (clamp7 i) = clamp7 i := by
  simp only [clamp7]
  omega

/-- Function-form sampling of a denoted grid is list sampling. -/
theorem sampleFun_toFun (g : GridQ) : sampleFun (toFun g) = sampleGrid g := by
  funext p
  rcases p with ⟨x, y⟩
  simp only [sampleFun, toFun, sampleGrid, coe_clampIdx, clamp7_clamp7]

/-- Indexing a mapped coordinate list below its length picks the image. -/
theorem getD_range_map {α : Type} (f : ℕ → α) (k : ℕ) (hk : k < 7) (dflt : α) :
    ((List.range 7).map f).getD k dflt = f k := by
  rw [List.getD_eq_getElem?_getD, List.getElem?_map, List.getElem?_range hk]
  rfl

/-- The field denoted by a grid built row by row from a cell function. -/
theorem toFun_rangeMap (f : ℕ → ℕ → PixelQ) :
    toFun ((List.range 7).map (fun j => (List.range 7).map (f j)))
      = fun c : Cell => f (c.2 : ℕ) (c.1 : ℕ) := by
  funext c
  simp only [toFun, sampleGrid, clamp7_toNat_coe]
  rw [getD_range_map _ _ c.2.isLt, getD_range_map _ _ c.1.isLt]

/-- The list impulse grid denotes the function-form impulse field. -/
theorem toFun_impulseGrid : toFun impulseGrid = impulseFun :=
  toFun_rangeMap fun j i =>
    if i = 3 ∧ j = 3 then ⟨1, 1/2, 0, 0⟩ else ⟨1/2, 1/2, 0, 0⟩

/-- One list-grid propagation pass denotes one function-form pass. -/
theorem toFun_waveStep (g : GridQ) :
    toFun (waveStep g) = stepFun DAMPING (toFun g) := by
  have h := toFun_rangeMap fun j i =>
    propagateFragment DAMPING (sampleGrid g) ((i : ℤ), (j : ℤ))
  refine Eq.trans h ?_
  funext c
  simp only [stepFun, sampleFun_toFun]

/-- The list-grid iteration denotes the function-form iteration. -/
theorem toFun_gridAt (n : ℕ) : toFun (gridAt n) = funAt DAMPING n := by
  induction n with
  | zero => exact toFun_impulseGrid
  | succ n ih =>
    show toFun (waveStep (gridAt n)) = stepFun DAMPING (funAt DAMPING n)
    rw [toFun_waveStep, ih]

/-- Summing a mapped coordinate list is summing over the index range. -/
theorem listSum_range_map (f : ℕ → ℚ) (n : ℕ) :
    ((List.range n).map f).sum = ∑ i in Finset.range n, f i := by
  induction n with
  | zero => simp
  | succ n ih =>
    rw [List.range_succ, List.map_append, List.sum_append, Finset.sum_range_succ, ih]
    simp

/-- The list energy of a grid built from a cell function is the function-form
energy of the field it denotes. -/
theorem gridEnergy_rangeMap (f : ℕ → ℕ → PixelQ) :
    gridEnergy ((List.range 7).map (fun j => (List.range 7).map (f j)))
      = fieldEnergyFun (fun c : Cell => f (c.2 : ℕ) (c.1 : ℕ)) := by
  have hL : gridEnergy ((List.range 7).map (fun j => (List.range 7).map (f j)))
      = ∑ j in Finset.range 7, ∑ i in Finset.range 7,
          shadingDecode (f j i).r * shadingDecode (f j i).r := by
    simp only [gridEnergy, List.map_map, Function.comp]
    rw [listSum_range_map]
    refine Finset.sum_congr rfl fun j _ => ?_
    simp only [Function.comp]
    rw [List.map_map]
    exact listSum_range_map _ 7
  have hR : fieldEnergyFun (fun c : Cell => f (c.2 : ℕ) (c.1 : ℕ))
      = ∑ j in Finset.range 7, ∑ i in Finset.range 7,
          shadingDecode (f j i).r * shadingDecode (f j i).r := by
    simp only [fieldEnergyFun]
    rw [Fintype.sum_prod_type, Finset.sum_comm]
    rw [Fin.sum_univ_eq_sum_range
      (fun j => ∑ b : Fin 7, shadingDecode (f j (b : ℕ)).r * shadingDecode (f j (b : ℕ)).r) 7]
    refine Finset.sum_congr rfl fun j _ => ?_
    exact Fin.sum_univ_eq_sum_range
      (fun i => shadingDecode (f j i).r * shadingDecode (f j i).r) 7
  rw [hL, hR]

/-- At every step count the list-grid energy and the function-form energy
agree (for the source damping). -/
theorem gridEnergy_eq_funEnergy (n : ℕ) :
    gridEnergy (gridAt n) = funEnergy DAMPING n := by
  cases n with
  | zero =>
    exact gridEnergy_rangeMap fun j i =>
      if i = 3 ∧ j = 3 then (⟨1, 1/2, 0, 0⟩ : PixelQ) else ⟨1/2, 1/2, 0, 0⟩
  | succ k =>
    have h := gridEnergy_rangeMap fun j i =>
      propagateFragment DAMPING (sampleGrid (gridAt k)) ((i : ℤ), (j : ℤ))
    refine Eq.trans h ?_
    show fieldEnergyFun _ = fieldEnergyFun (stepFun DAMPING (funAt DAMPING k))
    have harg : (fun c : Cell =>
        propagateFragment DAMPING (sampleGrid (gridAt k)) ((c.1 : ℤ), (c.2 : ℤ)))
        = stepFun DAMPING (funAt DAMPING k) := by
      funext c
      rw [← toFun_gridAt k]
      simp only [stepFun, sampleFun_toFun]
    rw [harg]

/-- C3 counterexample: from the single impulse with zero momentum and the
source damping 0.995 ∈ (0,1), the total energy after two propagation steps
exceeds the energy after one step (and even the initial energy), so iterating
the propagation step does not monotonically decrease the total field energy. -/
theorem c3_counterexample :
    ¬ (gridEnergy (gridAt 2) ≤ gridEnergy (gridAt 1))
    ∧ ¬ (gridEnergy (gridAt 2) ≤ gridEnergy (gridAt 0)) := by
  constructor <;> · rw [not_le]; decide!

/-- C3 (amended): from the single-impulse, zero-momentum field, the first
propagation step scales the total energy by exactly damping² — a strict
decrease — but the decrease is not monotone under iteration: with the source
damping 0.995 the energy after two steps exceeds both the energy after one
step and the initial energy.  The never-diverges half of the claim holds: for
every damping d in (0,1) the energy stays below `9 / (1 - d)` at every step
count (the two-step model of the counterexample and the bounded function
model agree at every step, and at the source damping the bound is 1800). -/
theorem c3_energy_not_monotone_but_bounded (d : ℚ)
    (hd0 : 0 < d) (hd1 : d < 1) (n : ℕ) :
    gridEnergy (gridAt 1) = (DAMPING * DAMPING) * gridEnergy (gridAt 0)
    ∧ gridEnergy (gridAt 1) < gridEnergy (gridAt 0)
    ∧ gridEnergy (gridAt 1) < gridEnergy (gridAt 2)
    ∧ gridEnergy (gridAt 0) < gridEnergy (gridAt 2)
    ∧ funEnergy d n ≤ 9 / (1 - d)
    ∧ gridEnergy (gridAt n) = funEnergy DAMPING n
    ∧ gridEnergy (gridAt n) ≤ 1800 := by
  refine ⟨by decide!, by decide!, by decide!, by decide!,
    funEnergy_bounded d hd0 hd1 n, gridEnergy_eq_funEnergy n, ?_⟩
  have hb := funEnergy_bounded DAMPING (by norm_num [DAMPING]) (by norm_num [DAMPING]) n
  rw [gridEnergy_eq_funEnergy n]
  refine le_trans hb ?_
  norm_num [DAMPING]

/-- Witness for C3 (amended) at the source damping 0.995 and step count 3. -/
theorem c3_witness :
    gridEnergy (gridAt 1) = (DAMPING * DAMPING) * gridEnergy (gridAt 0)
    ∧ gridEnergy (gridAt 1) < gridEnergy (gridAt 0)
    ∧ gridEnergy (gridAt 1) < gridEnergy (gridAt 2)
    ∧ gridEnergy (gridAt 0) < gridEnergy (gridAt 2)
    ∧ funEnergy DAMPING 3 ≤ 9 / (1 - DAMPING)
    ∧ gridEnergy (gridAt 3) = funEnergy DAMPING 3
    ∧ gridEnergy (gridAt 3) ≤ 1800 :=
  c3_energy_not_monotone_but_bounded DAMPING (by norm_num [DAMPING])
    (by norm_num [DAMPING]) 3

/-- C6 counterexample: in the command trace of `propagate()` on a concrete
water plane, the draw does not precede the flip — `flip()` is invoked before
the propagation draw, not after it. -/
theorem c6_counterexample :
    ¬ flipOnlyAfterDraw (propagateTrace ⟨0, 1, 7, 7, true⟩).1 := by
  unfold flipOnlyAfterDraw
  decide

/-- C6 (amended): `propagate()` invokes `flip()` first — before the draw, not
after it — and then, still before the draw call, binds the post-flip front
buffer (the buffer that was back) as the render target and the post-flip back
buffer (the buffer that was front, holding the newest state) for reads. -/
theorem c6_flip_first_then_bind_then_draw (w : WaterPlane) :
    (propagateTrace w).1[1]? = some .flipBuffers
    ∧ (propagateTrace w).1[2]? = some (.bindTarget (w.flip).getFront)
    ∧ (w.flip).getFront = w.getBack
    ∧ (propagateTrace w).1[6]? = some (.bindTexture (w.flip).getBack)
    ∧ (w.flip).getBack = w.getFront
    ∧ (propagateTrace w).1[8]? = some .drawCall
    ∧ (propagateTrace w).2 = w.flip := by
  refine ⟨rfl, rfl, ?_, rfl, ?_, rfl, rfl⟩ <;>
    · rcases w with ⟨a, b, wd, ht, fr⟩
      cases fr <;> rfl

/-- C8 counterexample: the propagation write transform `x * 0.5 + 0.5` is not
the spec's `encode(h) = h/6 + 0.5` (they differ at 1), and a value stored by
the propagation write comes back through the shading read `v * 6 - 3`
multiplied by 3, not unchanged. -/
theorem c8_counterexample :
    propagationWriteEncode 1 ≠ specEncode 1
    ∧ shadingDecode (propagationWriteEncode 1) = 3 := by
  constructor <;> decide!

/-- C8 (amended): `decode(encode(h)) = h` holds exactly for every
`h ∈ [-3, 3]`, and `decode(v) = v*6-3` is the mapping used at the shading
read; but the propagation write stores its damped signal via `x * 0.5 + 0.5`
(so the stored red channel of every propagation step is
`propagationWriteEncode` of the damped signal), and reading such a stored
value back through the shading decode yields `3 * x`, not `x`. -/
theorem c8_decode_encode_roundtrip (h : ℚ) (h1 : -3 ≤ h) (h2 : h ≤ 3)
    (x damping : ℚ) (src : ℤ × ℤ → PixelQ) (p : ℤ × ℤ) :
    shadingDecode (specEncode h) = h
    ∧ shadingDecode (propagationWriteEncode x) = 3 * x
    ∧ (propagateFragment damping src p).r
        = propagationWriteEncode (propagateSignal damping src p) := by
  refine ⟨?_, ?_, rfl⟩
  · unfold shadingDecode specEncode; ring
  · unfold shadingDecode propagationWriteEncode; ring

/-- Witness for C8 (amended) at h = 1, x = 2, the source damping, a constant
source texture and the origin cell. -/
theorem c8_witness :
    shadingDecode (specEncode 1) = 1
    ∧ shadingDecode (propagationWriteEncode 2) = 3 * 2
    ∧ (propagateFragment DAMPING (fun _ => ⟨1, 1/2, 0, 0⟩) (0, 0)).r
        = propagationWriteEncode
            (propagateSignal DAMPING (fun _ => ⟨1, 1/2, 0, 0⟩) (0, 0)) :=
  c8_decode_encode_roundtrip 1 (by norm_num) (by norm_num) 2 DAMPING
    (fun _ => ⟨1, 1/2, 0, 0⟩) (0, 0)

/-- C9: `render()` mutates no simulation state — the water plane's buffer
roles and both height-field buffer contents are unchanged (whenever the
currently bound framebuffer is not one of the two height-field buffers), the
framebuffer binding itself is unchanged, and the only content the draw writes
is that of the currently bound framebuffer. -/
theorem c9_render_is_pure_draw (draw : GLState → List ℚ) (s : GLState)
    (background meshVertices meshIndices : ℕ) (width height scale time : ℚ)
    (idx : ℕ)
    (h1 : s.boundFramebuffer ≠ s.water.bufA)
    (h2 : s.boundFramebuffer ≠ s.water.bufB)
    (hidx : idx ≠ s.boundFramebuffer) :
    (renderStep draw s background meshVertices meshIndices
        width height scale time).water = s.water
    ∧ (renderStep draw s background meshVertices meshIndices
        width height scale time).contents s.water.bufA
        = s.contents s.water.bufA
    ∧ (renderStep draw s background meshVertices meshIndices
        width height scale time).contents s.water.bufB
        = s.contents s.water.bufB
    ∧ (renderStep draw s background meshVertices meshIndices
        width height scale time).boundFramebuffer = s.boundFramebuffer
    ∧ (renderStep draw s background meshVertices meshIndices
        width height scale time).contents idx = s.contents idx := by
  refine ⟨rfl, ?_, ?_, rfl, ?_⟩ <;>
    · simp only [renderStep]
      rw [if_neg]
      intro hc
      first
        | exact h1 hc.symm
        | exact h2 hc.symm
        | exact hidx hc

/-- Witness for C9 at a concrete GL state whose bound framebuffer (id 5) is
neither water buffer (ids 0 and 1), observing untouched content at id 9. -/
theorem c9_witness :
    (renderStep (fun _ => []) ⟨0, 0, 0, 0, 0, 0, 5, fun _ => [], ⟨0, 1, 7, 7, true⟩,
        ⟨0, 0, 0, 0, 0, (0, 0), (0, 0), 0⟩⟩ 2 3 4 640 480 1 0).water
      = (⟨0, 1, 7, 7, true⟩ : WaterPlane)
    ∧ (renderStep (fun _ => []) ⟨0, 0, 0, 0, 0, 0, 5, fun _ => [], ⟨0, 1, 7, 7, true⟩,
        ⟨0, 0, 0, 0, 0, (0, 0), (0, 0), 0⟩⟩ 2 3 4 640 480 1 0).contents 0
      = (fun _ => ([] : List ℚ)) 0
    ∧ (renderStep (fun _ => []) ⟨0, 0, 0, 0, 0, 0, 5, fun _ => [], ⟨0, 1, 7, 7, true⟩,
        ⟨0, 0, 0, 0, 0, (0, 0), (0, 0), 0⟩⟩ 2 3 4 640 480 1 0).contents 1
      = (fun _ => ([] : List ℚ)) 1
    ∧ (renderStep (fun _ => []) ⟨0, 0, 0, 0, 0, 0, 5, fun _ => [], ⟨0, 1, 7, 7, true⟩,
        ⟨0, 0, 0, 0, 0, (0, 0), (0, 0), 0⟩⟩ 2 3 4 640 480 1 0).boundFramebuffer
      = 5
    ∧ (renderStep (fun _ => []) ⟨0, 0, 0, 0, 0, 0, 5, fun _ => [], ⟨0, 1, 7, 7, true⟩,
        ⟨0, 0, 0, 0, 0, (0, 0), (0, 0), 0⟩⟩ 2 3 4 640 480 1 0).contents 9
      = (fun _ => ([] : List ℚ)) 9 :=
  c9_render_is_pure_draw (fun _ => []) _ 2 3 4 640 480 1 0 9
    (by decide) (by decide) (by decide)

/-- C10: once `initialize()` has run on a card, running it again returns
immediately with the card state unchanged and no observable effect: no atlas
write, no preview render, no region return, and no second name element. -/
theorem c10_initialize_idempotent (s : CardState) :
    initializeCard (initializeCard s).1 = ((initializeCard s).1, []) := by
  rcases s with ⟨i, r, sp, n⟩
  cases i <;> cases r <;> simp [initializeCard]

/-- C4: over a perfectly flat height field (both buffers constant at the
encoded-neutral 1/2 everywhere) the computed surface normal is exactly
(0,-1,0) — the (0,1,0)-equivalent vertical — the displacement is the zero
vector, and (when the unshifted background sample is not fully transparent)
the output equals `filter * backgroundSample` with the background sampled
unshifted. -/
theorem c4_flat_field_no_distortion (e : DistortEnv) (f : Vec2)
    (hb : ∀ uv, (e.waterBack uv).x = 1/2)
    (hf : ∀ uv, (e.waterFront uv).x = 1/2)
    (ha : (e.background ⟨f.x / e.size.x, f.y / e.size.y⟩).w ≠ 0) :
    surfaceNormal e f = ⟨0, -1, 0⟩
    ∧ yAxisAligned (surfaceNormal e f)
    ∧ displacement e f = ⟨0, 0⟩
    ∧ fragColor e f
        = v4mul filterColor (e.background ⟨f.x / e.size.x, f.y / e.size.y⟩) := by
  have hget : ∀ d : Vec2, getHeight e f d = 0 := by
    intro d
    simp only [getHeight, mixR, hb, hf]
    norm_num
  have hdyx : dyx e f = 0 := by
    simp [dyx, hget]
  have hdyz : dyz e f = 0 := by
    simp [dyz, hget]
  have h200 : normalize3 ⟨2, 0, 0⟩ = ⟨1, 0, 0⟩ := by
    have hl : length3 (⟨2, 0, 0⟩ : Vec3) = 2 := by
      simp only [length3, dot3]
      rw [show (2 * 2 + 0 * 0 + 0 * 0 : ℝ) = 2 ^ 2 by norm_num]
      exact Real.sqrt_sq (by norm_num)
    simp only [normalize3, hl]
    norm_num
  have h002 : normalize3 ⟨0, 0, 2⟩ = ⟨0, 0, 1⟩ := by
    have hl : length3 (⟨0, 0, 2⟩ : Vec3) = 2 := by
      simp only [length3, dot3]
      rw [show (0 * 0 + 0 * 0 + 2 * 2 : ℝ) = 2 ^ 2 by norm_num]
      exact Real.sqrt_sq (by norm_num)
    simp only [normalize3, hl]
    norm_num
  have hnormal : surfaceNormal e f = ⟨0, -1, 0⟩ := by
    simp only [surfaceNormal, hdyx, hdyz, h200, h002, cross3]
    norm_num
  have hdisp : displacement e f = ⟨0, 0⟩ := by
    simp only [displacement, hnormal]
    norm_num
  have hshiny : shiny e f = 0 := by
    simp only [shiny, hnormal, dot3, normalize3]
    norm_num
  have hadj : shinyAdjusted e f = 0 := by
    simp only [shinyAdjusted, hshiny]
    norm_num
  have hsp : sampledPixel e f = e.background ⟨f.x / e.size.x, f.y / e.size.y⟩ := by
    simp only [sampledPixel, hdisp]
    norm_num
  have hbp : blendedPixel e f = e.background ⟨f.x / e.size.x, f.y / e.size.y⟩ := by
    simp only [blendedPixel, hsp]
    rw [if_neg ha]
  refine ⟨hnormal, ?_, hdisp, ?_⟩
  · rw [hnormal]
    exact ⟨rfl, rfl, Or.inr rfl⟩
  · simp only [fragColor, hbp, hadj, mix4, mixR, v4mul]
    norm_num

/-- Witness for C4 at the concrete flat environment and fragment (1/2, 1/2). -/
theorem c4_witness :
    surfaceNormal flatWaterEnv ⟨1/2, 1/2⟩ = ⟨0, -1, 0⟩
    ∧ yAxisAligned (surfaceNormal flatWaterEnv ⟨1/2, 1/2⟩)
    ∧ displacement flatWaterEnv ⟨1/2, 1/2⟩ = ⟨0, 0⟩
    ∧ fragColor flatWaterEnv ⟨1/2, 1/2⟩
        = v4mul filterColor (flatWaterEnv.background
            ⟨(1/2 : ℝ) / flatWaterEnv.size.x, (1/2 : ℝ) / flatWaterEnv.size.y⟩) :=
  c4_flat_field_no_distortion flatWaterEnv ⟨1/2, 1/2⟩
    (fun _ => rfl) (fun _ => rfl) (by norm_num [flatWaterEnv])

/-- C5: the output color is the linear blend of `filter * backgroundSample`
and the fixed sky color, blended by the shading term
`shiny = dot(normalize((1,0,1)), normal)` adjusted by exactly the two-piece
rule: times 0.5 when negative, times 1.5 when above 0.5, unchanged otherwise. -/
theorem c5_piecewise_specular_blend (e : DistortEnv) (f : Vec2) :
    fragColor e f
      = mix4 (v4mul filterColor (blendedPixel e f)) skyColor
          (claimAdjust (dot3 (normalize3 ⟨1, 0, 1⟩) (surfaceNormal e f))) := rfl

/-- C7: the background is sampled at `screenUV - displacement`, and whenever
that sample has alpha exactly 0 the pixel used in the blend is opaque white. -/
theorem c7_transparent_background_white (e : DistortEnv) (f : Vec2)
    (h : (sampledPixel e f).w = 0) :
    sampledPixel e f
      = e.background ⟨f.x / e.size.x - (displacement e f).x,
                      f.y / e.size.y - (displacement e f).y⟩
    ∧ fragColor e f
      = mix4 (v4mul filterColor ⟨1, 1, 1, 1⟩) skyColor (shinyAdjusted e f) := by
  refine ⟨rfl, ?_⟩
  unfold fragColor blendedPixel
  rw [if_pos h]

/-- Witness for C7 at the concrete fully-transparent background environment. -/
theorem c7_witness :
    sampledPixel alphaZeroEnv ⟨1/2, 1/2⟩
      = alphaZeroEnv.background
          ⟨(1/2 : ℝ) / alphaZeroEnv.size.x - (displacement alphaZeroEnv ⟨1/2, 1/2⟩).x,
           (1/2 : ℝ) / alphaZeroEnv.size.y - (displacement alphaZeroEnv ⟨1/2, 1/2⟩).y⟩
    ∧ fragColor alphaZeroEnv ⟨1/2, 1/2⟩
      = mix4 (v4mul filterColor ⟨1, 1, 1, 1⟩) skyColor
          (shinyAdjusted alphaZeroEnv ⟨1/2, 1/2⟩) :=
  c7_transparent_background_white alphaZeroEnv ⟨1/2, 1/2⟩ rfl
